import Mathlib

/-!
Verification of the query and aggregation layer of the finance MCP server
(src/test.py and src/populate.py).

The SQLite database is modelled as in-memory lists of rows of the two
tables `PeopleInformation` and `TransactionData`.  Each query function is
translated from the SQL statement and the surrounding Python it executes.
Timestamps are modelled as six-field records; SQLite stores them as
canonical zero-padded "YYYY-MM-DD HH:MM:SS" text, whose text ordering for
in-range field values coincides with the lexicographic field order used
here.  REAL amounts are modelled as exact rationals (an idealisation of
IEEE doubles; which rows are summed and the empty-sum convention are
unaffected).  Connection lifecycle and the Python exception behaviour are
modelled by the small-step run model at the end of the definitions.
-/

namespace FinMcp

/-- ASCII character of a decimal digit, as produced by Python `%d`
formatting and by SQLite `strftime`. -/
def digitChar (n : Nat) : Char := Char.ofNat (48 + n)

/-- Numeric value of an ASCII digit character. -/
def digitVal (c : Char) : Nat := c.toNat - 48

/-- Timestamp value (Python `datetime` without timezone, stored by SQLite
as canonical text). -/
structure DateTime where
  year : Nat
  month : Nat
  day : Nat
  hour : Nat
  minute : Nat
  second : Nat
  deriving DecidableEq

/-- Chronological order on timestamps: lexicographic on the fields.  For
in-range field values this is exactly SQLite's ordering of the canonical
timestamp text. -/
abbrev DateTime.Le (a b : DateTime) : Prop :=
  a.year < b.year ∨ (a.year = b.year ∧ (a.month < b.month ∨ (a.month = b.month ∧
    (a.day < b.day ∨ (a.day = b.day ∧ (a.hour < b.hour ∨ (a.hour = b.hour ∧
      (a.minute < b.minute ∨ (a.minute = b.minute ∧ a.second ≤ b.second)))))))))

/-- Row of the `PeopleInformation` table (`first_name`/`last_name` are
NOT NULL, `email` and `phone_number` are nullable). -/
structure Person where
  person_id : Nat
  first_name : String
  last_name : String
  email : Option String
  phone_number : Option String
  created_at : DateTime
  deriving DecidableEq

/-- Row of the `TransactionData` table (`location` and `description` are
nullable; `amount` is a NOT NULL REAL, modelled as an exact rational). -/
structure Transaction where
  transaction_id : Nat
  person_id : Nat
  transaction_date : DateTime
  amount : ℚ
  location : Option String
  description : Option String
  deriving DecidableEq

/-- State of the SQLite store: the contents of the two tables. -/
structure DB where
  people : List Person
  transactions : List Transaction
  deriving DecidableEq

/-- Record returned by the by-month and by-day queries (one row per
matching transaction, converted to a dict with exactly these keys). -/
structure TxRecord where
  transaction_id : Nat
  transaction_date : DateTime
  amount : ℚ
  location : Option String
  description : Option String
  deriving DecidableEq

/-- Record returned by `get_transactions_by_location` (includes the
person's name). -/
structure LocRecord where
  transaction_id : Nat
  first_name : String
  last_name : String
  transaction_date : DateTime
  amount : ℚ
  location : Option String
  description : Option String
  deriving DecidableEq

/-- Record returned by `list_all_people`: exactly the keys `person_id`,
`first_name`, `last_name`, `email`, `phone_number`,
`most_frequent_location` (the last one nullable). -/
structure PersonRecord where
  person_id : Nat
  first_name : String
  last_name : String
  email : Option String
  phone_number : Option String
  most_frequent_location : Option String
  deriving DecidableEq

/-- The SQL inner join `TransactionData td JOIN PeopleInformation pi ON
td.person_id = pi.person_id`: one row per matching (transaction, person)
pair. -/
def joinAll (db : DB) : List (Transaction × Person) :=
  db.transactions.flatMap fun t =>
    (db.people.filter fun p => decide (p.person_id = t.person_id)).map fun p => (t, p)

/-- Joined rows restricted by `WHERE pi.first_name = ? AND pi.last_name = ?`
(exact, case-sensitive match), projected to the transaction. -/
def rowsByName (db : DB) (fn ln : String) : List Transaction :=
  ((joinAll db).filter fun tp =>
    decide (tp.2.first_name = fn) && decide (tp.2.last_name = ln)).map Prod.fst

/-- Projection of a transaction row to the record shape returned by the
by-month and by-day queries. -/
def txRecord (t : Transaction) : TxRecord :=
  ⟨t.transaction_id, t.transaction_date, t.amount, t.location, t.description⟩

/-- Projection of a joined row to the record shape returned by
`get_transactions_by_location`. -/
def locRecord (tp : Transaction × Person) : LocRecord :=
  ⟨tp.1.transaction_id, tp.2.first_name, tp.2.last_name, tp.1.transaction_date,
    tp.1.amount, tp.1.location, tp.1.description⟩

/-- The comparison used by `ORDER BY td.transaction_date` (ascending). -/
def txDateAsc (a b : Transaction) : Prop :=
  DateTime.Le a.transaction_date b.transaction_date

instance : DecidableRel txDateAsc := fun a b =>
  inferInstanceAs (Decidable (DateTime.Le a.transaction_date b.transaction_date))

/-- The comparison used by `ORDER BY td.transaction_date DESC`. -/
def rowDateDesc (a b : Transaction × Person) : Prop :=
  DateTime.Le b.1.transaction_date a.1.transaction_date

instance : DecidableRel rowDateDesc := fun a b =>
  inferInstanceAs (Decidable (DateTime.Le b.1.transaction_date a.1.transaction_date))

/-- Strict text comparison of SQLite's BINARY collation: memcmp of the
UTF-8 bytes, which on code points is exactly this lexicographic
comparison (UTF-8 is order-preserving), with a proper prefix comparing
smaller. -/
def charListLt : List Char → List Char → Bool
  | [], [] => false
  | [], _ :: _ => true
  | _ :: _, [] => false
  | a :: as, b :: bs => if a < b then true else if b < a then false else charListLt as bs

/-- The comparison used by `ORDER BY pi.last_name, pi.first_name`
(BINARY collation on each key; `first_name` only decides ties of
`last_name`). -/
def nameLe (a b : Person) : Prop :=
  charListLt a.last_name.data b.last_name.data = true ∨
    (a.last_name = b.last_name ∧ charListLt b.first_name.data a.first_name.data = false)

instance : DecidableRel nameLe := fun a b =>
  inferInstanceAs (Decidable (charListLt a.last_name.data b.last_name.data = true ∨
    (a.last_name = b.last_name ∧ charListLt b.first_name.data a.first_name.data = false)))

instance : IsTotal Transaction txDateAsc :=
  ⟨by intro a b; simp only [txDateAsc, DateTime.Le]; omega⟩

instance : IsTrans Transaction txDateAsc :=
  ⟨by intro a b c; simp only [txDateAsc, DateTime.Le]; omega⟩

instance : IsTotal (Transaction × Person) rowDateDesc :=
  ⟨by intro a b; simp only [rowDateDesc, DateTime.Le]; omega⟩

instance : IsTrans (Transaction × Person) rowDateDesc :=
  ⟨by intro a b c; simp only [rowDateDesc, DateTime.Le]; omega⟩

/-- Name order on the records returned by `list_all_people`. -/
def recNameLe (a b : PersonRecord) : Prop :=
  charListLt a.last_name.data b.last_name.data = true ∨
    (a.last_name = b.last_name ∧ charListLt b.first_name.data a.first_name.data = false)

/-- Date-ascending order on the records returned by the by-month and
by-day queries. -/
def recDateAsc (a b : TxRecord) : Prop :=
  DateTime.Le a.transaction_date b.transaction_date

/-- Date-descending order on the records returned by
`get_transactions_by_location`. -/
def recDateDesc (a b : LocRecord) : Prop :=
  DateTime.Le b.transaction_date a.transaction_date

/-- Decimal digits of `n`, most significant first, as rendered by Python
`%d` (fuel-indexed to keep the recursion structural; the fuel `n + 1`
always suffices). -/
def natDigitsAux : Nat → Nat → List Char
  | 0, _ => []
  | fuel + 1, n =>
    if n < 10 then [digitChar n] else natDigitsAux fuel (n / 10) ++ [digitChar (n % 10)]

/-- Decimal rendering of a natural number, as Python `%d`. -/
def natDigits (n : Nat) : List Char := natDigitsAux (n + 1) n

/-- Python `f"{month:02d}"`: decimal rendering zero-padded to width 2
(the minus sign of a negative value counts toward the width). -/
def formatInt2 (m : Int) : List Char :=
  if m < 0 then '-' :: natDigits m.natAbs
  else if m.toNat < 10 then ['0', digitChar m.toNat]
  else natDigits m.toNat

/-- SQLite `strftime('%m', transaction_date)`: the zero-padded two-digit
month component of the stored canonical timestamp text. -/
def monthChars (d : DateTime) : List Char :=
  [digitChar (d.month / 10 % 10), digitChar (d.month % 10)]

/-- SQLite `date(transaction_date)`: the canonical zero-padded
"YYYY-MM-DD" rendering of the date portion of the stored timestamp. -/
def dateChars (d : DateTime) : List Char :=
  [digitChar (d.year / 1000 % 10), digitChar (d.year / 100 % 10),
    digitChar (d.year / 10 % 10), digitChar (d.year % 10), '-',
    digitChar (d.month / 10 % 10), digitChar (d.month % 10), '-',
    digitChar (d.day / 10 % 10), digitChar (d.day % 10)]

/-- Month field of CPython `strptime`: the regex alternation
`1[0-2]|0[1-9]|[1-9]`, greedy with ordered alternatives, returning the
value and the unconsumed input. -/
def parseMonthChars : List Char → Option (Nat × List Char)
  | [] => none
  | c :: rest =>
    match rest with
    | c2 :: rest2 =>
      if c = '1' ∧ '0' ≤ c2 ∧ c2 ≤ '2' then some (10 + digitVal c2, rest2)
      else if c = '0' ∧ '1' ≤ c2 ∧ c2 ≤ '9' then some (digitVal c2, rest2)
      else if '1' ≤ c ∧ c ≤ '9' then some (digitVal c, rest)
      else none
    | [] => if '1' ≤ c ∧ c ≤ '9' then some (digitVal c, []) else none

/-- Day field of CPython `strptime`: the regex alternation
`3[01]|[12]\d|0[1-9]|[1-9]`. -/
def parseDayChars : List Char → Option (Nat × List Char)
  | [] => none
  | c :: rest =>
    match rest with
    | c2 :: rest2 =>
      if c = '3' ∧ (c2 = '0' ∨ c2 = '1') then some (30 + digitVal c2, rest2)
      else if (c = '1' ∨ c = '2') ∧ c2.isDigit then
        some (digitVal c * 10 + digitVal c2, rest2)
      else if c = '0' ∧ '1' ≤ c2 ∧ c2 ≤ '9' then some (digitVal c2, rest2)
      else if '1' ≤ c ∧ c ≤ '9' then some (digitVal c, rest)
      else none
    | [] => if '1' ≤ c ∧ c ≤ '9' then some (digitVal c, []) else none

/-- Gregorian leap-year rule used by Python `datetime`. -/
def isLeap (y : Nat) : Bool :=
  (decide (y % 4 = 0) && !decide (y % 100 = 0)) || decide (y % 400 = 0)

/-- Number of days in a month, as validated by the `datetime` constructor. -/
def daysInMonth (y m : Nat) : Nat :=
  if m = 2 then (if isLeap y then 29 else 28)
  else if m = 4 ∨ m = 6 ∨ m = 9 ∨ m = 11 then 30 else 31

/-- Bounds satisfied by every timestamp a Python `datetime` can hold
(`MINYEAR = 1`, `MAXYEAR = 9999`, calendar-valid day); every stored
`transaction_date` was inserted from such a value. -/
abbrev DateTime.Valid (d : DateTime) : Prop :=
  1 ≤ d.year ∧ d.year ≤ 9999 ∧ 1 ≤ d.month ∧ d.month ≤ 12 ∧
    1 ≤ d.day ∧ d.day ≤ daysInMonth d.year d.month ∧
    d.hour ≤ 23 ∧ d.minute ≤ 59 ∧ d.second ≤ 59

/-- Final step of `strptime`: nothing may be left over ("unconverted
data remains"), then the `datetime` constructor's validation
(`MINYEAR = 1`, day within the month). -/
def parseAfterDay (y m d : Nat) (rest : List Char) : Option (Nat × Nat × Nat) :=
  if rest = [] then
    if 1 ≤ y ∧ d ≤ daysInMonth y m then some (y, m, d) else none
  else none

/-- Continuation of `strptime` after the second dash: the day field. -/
def parseAfterDash (y m : Nat) (cs : List Char) : Option (Nat × Nat × Nat) :=
  match parseDayChars cs with
  | some (d, rest4) => parseAfterDay y m d rest4
  | none => none

/-- Continuation of `strptime` after the month field: a literal dash. -/
def parseAfterMonth (y m : Nat) : List Char → Option (Nat × Nat × Nat)
  | c :: rest3 => if c = '-' then parseAfterDash y m rest3 else none
  | [] => none

/-- Continuation of `strptime` after the four year digits and the first
dash: month field, dash, day field, end of input, validation. -/
def parseAfterYear (y : Nat) (cs : List Char) : Option (Nat × Nat × Nat) :=
  match parseMonthChars cs with
  | some (m, rest2) => parseAfterMonth y m rest2
  | none => none

/-- CPython `datetime.strptime(date_str, "%Y-%m-%d")` on the character
list: exactly four year digits, dash, month field, dash, day field,
nothing left over, then calendar validation.  `none` models
`ValueError`. -/
def parseDateChars : List Char → Option (Nat × Nat × Nat)
  | y1 :: y2 :: y3 :: y4 :: c :: rest =>
    if y1.isDigit ∧ y2.isDigit ∧ y3.isDigit ∧ y4.isDigit ∧ c = '-' then
      parseAfterYear
        (digitVal y1 * 1000 + digitVal y2 * 100 + digitVal y3 * 10 + digitVal y4) rest
    else none
  | _ => none

/-- CPython `datetime.strptime(date_str, "%Y-%m-%d")`: returns the parsed
(year, month, day), or `none` on `ValueError`. -/
def parseDate (s : String) : Option (Nat × Nat × Nat) :=
  parseDateChars s.data

/-- Python `round` at rational level: round half to even (banker's
rounding). -/
def roundHalfEven (q : ℚ) : ℤ :=
  if q - ⌊q⌋ < 1 / 2 then ⌊q⌋
  else if 1 / 2 < q - ⌊q⌋ then ⌊q⌋ + 1
  else if ⌊q⌋ % 2 = 0 then ⌊q⌋ else ⌊q⌋ + 1

/-- Python `round(x, 2)`. -/
def round2 (q : ℚ) : ℚ := (roundHalfEven (q * 100) : ℚ) / 100

/-- `get_transactions_by_month_and_name` (src/test.py lines 9-41,
src/populate.py lines 114-145): join, exact name filter,
`strftime('%m', td.transaction_date) = f"{month:02d}"`, ordered ascending
by date, projected to dict records. -/
def get_transactions_by_month_and_name (db : DB) (fn ln : String) (month : Int) :
    List TxRecord :=
  (List.insertionSort txDateAsc
    ((rowsByName db fn ln).filter fun t =>
      monthChars t.transaction_date == formatInt2 month)).map txRecord

/-- `get_transactions_by_day_and_name` (src/test.py lines 43-78,
src/populate.py lines 147-181): validate `date_str` with
`strptime("%Y-%m-%d")`, returning `[]` on failure; otherwise join, name
filter, `date(td.transaction_date) = date_str` (text equality against the
canonical rendering), ordered ascending by date. -/
def get_transactions_by_day_and_name (db : DB) (fn ln date_str : String) :
    List TxRecord :=
  match parseDate date_str with
  | none => []
  | some _ =>
    (List.insertionSort txDateAsc
      ((rowsByName db fn ln).filter fun t =>
        dateChars t.transaction_date == date_str.data)).map txRecord

/-- `get_total_transaction_amount_by_name` (src/test.py lines 80-107,
src/populate.py lines 183-209): `SELECT SUM(td.amount)` over the joined
name-filtered rows; SQL `SUM` is NULL exactly when no row matches, and
the Python wrapper turns that NULL into `0.0`, otherwise rounds the sum
to two decimals. -/
def get_total_transaction_amount_by_name (db : DB) (fn ln : String) : ℚ :=
  let amts := (rowsByName db fn ln).map fun t => t.amount
  if amts.isEmpty then 0 else round2 amts.sum

/-- Transactions of person `pid` qualifying for the most-frequent-location
aggregation: `WHERE location IS NOT NULL AND location != ''`. -/
def isQualLoc : Option String → Bool
  | none => false
  | some s => decide (s ≠ "")

/-- Qualifying transactions of one person (the `GROUP BY person_id`
partition of the CTE, before grouping by location). -/
def qualTxns (db : DB) (pid : Nat) : List Transaction :=
  db.transactions.filter fun t => decide (t.person_id = pid) && isQualLoc t.location

/-- The distinct locations appearing among a person's qualifying
transactions (the `GROUP BY person_id, location` groups of one person). -/
def qualLocs (db : DB) (pid : Nat) : List String :=
  ((qualTxns db pid).filterMap fun t => t.location).dedup

/-- `COUNT(*)` of one (person, location) group. -/
def locCount (db : DB) (pid : Nat) (loc : String) : Nat :=
  (qualTxns db pid).countP fun t => decide (t.location = some loc)

/-- Fold computing the chronologically greatest element of a list of
dates (the seed is earlier than every valid date). -/
def maxDateFold (l : List DateTime) : DateTime :=
  l.foldl (fun acc d => if DateTime.Le acc d then d else acc) ⟨0, 0, 0, 0, 0, 0⟩

/-- `MAX(transaction_date)` of one (person, location) group. -/
def locMaxDate (db : DB) (pid : Nat) (loc : String) : DateTime :=
  maxDateFold (((qualTxns db pid).filter fun t =>
    decide (t.location = some loc)).map fun t => t.transaction_date)

/-- Strict "ranks before" comparison of the window
`ORDER BY COUNT(*) DESC, MAX(transaction_date) DESC`: `a` ranks strictly
before `b` when it has a larger count, or an equal count and a strictly
later latest date. -/
def locBetter (db : DB) (pid : Nat) (a b : String) : Bool :=
  decide (locCount db pid b < locCount db pid a) ||
    (decide (locCount db pid a = locCount db pid b) &&
      decide (¬ DateTime.Le (locMaxDate db pid a) (locMaxDate db pid b)))

/-- Selection of the group with `ROW_NUMBER() = 1`: a maximum of the
groups under the ranking order (on a full tie of count and latest date
the winner is implementation-defined in SQLite; the fold keeps the
earlier candidate). -/
def pickBest (db : DB) (pid : Nat) (l : String) (ls : List String) : String :=
  ls.foldl (fun best l2 => if locBetter db pid l2 best then l2 else best) l

/-- The `most_frequent_location` value `LEFT JOIN`ed onto a person: the
top-ranked qualifying location, or NULL when the person has no
qualifying transaction. -/
def mostFrequentLocation (db : DB) (pid : Nat) : Option String :=
  match qualLocs db pid with
  | [] => none
  | l :: ls => some (pickBest db pid l ls)

/-- Record built for one person by `list_all_people`. -/
def personRecord (db : DB) (p : Person) : PersonRecord :=
  ⟨p.person_id, p.first_name, p.last_name, p.email, p.phone_number,
    mostFrequentLocation db p.person_id⟩

/-- `list_all_people` (src/test.py lines 109-152): every person exactly
once, `ORDER BY pi.last_name, pi.first_name`, each with the derived
`most_frequent_location`. -/
def list_all_people (db : DB) : List PersonRecord :=
  (List.insertionSort nameLe db.people).map (personRecord db)

/-- `get_transactions_by_location` (src/test.py lines 155-187): join,
`WHERE td.location = ?` (a NULL location never compares equal), ordered
descending by date. -/
def get_transactions_by_location (db : DB) (loc : String) : List LocRecord :=
  (List.insertionSort rowDateDesc
    ((joinAll db).filter fun tp => decide (tp.1.location = some loc))).map locRecord

/-- Observable outcome of running one query operation: whether the
connection was closed before control left the function, whether a
diagnostic was printed, and the returned value or the propagated Python
exception. -/
structure OpRun (α : Type) where
  closed : Bool
  diag : Bool
  outcome : Except Unit α

/-- Control flow of `get_transactions_by_month_and_name`: connect, then
`cursor.execute`/`fetchall` (which may raise: `execOk = false`), then
`conn.close()`.  There is no try/finally, so an exception skips the
close. -/
def monthRun (db : DB) (execOk : Bool) (fn ln : String) (m : Int) :
    OpRun (List TxRecord) :=
  if execOk then ⟨true, false, Except.ok (get_transactions_by_month_and_name db fn ln m)⟩
  else ⟨false, false, Except.error ()⟩

/-- Control flow of `get_transactions_by_day_and_name`: connect, validate
the date (on failure print a diagnostic, close, return `[]`), then
execute/fetch (may raise, skipping the close), then close. -/
def dayRun (db : DB) (execOk : Bool) (fn ln ds : String) : OpRun (List TxRecord) :=
  match parseDate ds with
  | none => ⟨true, true, Except.ok []⟩
  | some _ =>
    if execOk then ⟨true, false, Except.ok (get_transactions_by_day_and_name db fn ln ds)⟩
    else ⟨false, false, Except.error ()⟩

/-- Control flow of `get_total_transaction_amount_by_name`. -/
def totalRun (db : DB) (execOk : Bool) (fn ln : String) : OpRun ℚ :=
  if execOk then ⟨true, false, Except.ok (get_total_transaction_amount_by_name db fn ln)⟩
  else ⟨false, false, Except.error ()⟩

/-- Control flow of `list_all_people`. -/
def peopleRun (db : DB) (execOk : Bool) : OpRun (List PersonRecord) :=
  if execOk then ⟨true, false, Except.ok (list_all_people db)⟩
  else ⟨false, false, Except.error ()⟩

/-- Control flow of `get_transactions_by_location`. -/
def locationRun (db : DB) (execOk : Bool) (loc : String) : OpRun (List LocRecord) :=
  if execOk then ⟨true, false, Except.ok (get_transactions_by_location db loc)⟩
  else ⟨false, false, Except.error ()⟩

/-- Concrete person row used by witnesses. -/
def adaP : Person :=
  ⟨1, "Ada", "Lovelace", some "ada@example.com", some "555-0001", ⟨2024, 1, 1, 0, 0, 0⟩⟩

/-- Concrete person row with no transactions, used by witnesses. -/
def graceP : Person :=
  ⟨2, "Grace", "Hopper", some "grace@example.com", none, ⟨2024, 1, 2, 0, 0, 0⟩⟩

/-- Concrete transaction row used by witnesses. -/
def tx1 : Transaction := ⟨1, 1, ⟨2024, 3, 5, 10, 0, 0⟩, 50, some "London", some "books"⟩

/-- Concrete transaction row used by witnesses. -/
def tx2 : Transaction := ⟨2, 1, ⟨2024, 3, 19, 9, 30, 0⟩, 30, some "London", none⟩

/-- Concrete transaction row used by witnesses. -/
def tx3 : Transaction := ⟨3, 1, ⟨2024, 4, 1, 12, 0, 0⟩, 20, some "Paris", none⟩

/-- Concrete store used by witnesses: Ada Lovelace with two London
transactions and one Paris transaction, and Grace Hopper with none. -/
def dbAda : DB where
  people := [adaP, graceP]
  transactions := [tx1, tx2, tx3]

/-- Concrete person row of the tie-break store. -/
def tieP : Person := ⟨1, "Ada", "Lovelace", none, none, ⟨2024, 1, 1, 0, 0, 0⟩⟩

/-- Concrete store used by witnesses: one person whose two qualifying
locations are tied on count, with the London transaction more recent. -/
def dbTie : DB where
  people := [tieP]
  transactions :=
    [⟨1, 1, ⟨2024, 1, 1, 8, 0, 0⟩, 10, some "Paris", none⟩,
     ⟨2, 1, ⟨2024, 2, 1, 8, 0, 0⟩, 10, some "London", none⟩]

/-! Helper lemmas. -/

theorem DateTime.le_refl (a : DateTime) : DateTime.Le a a := by
  unfold DateTime.Le; omega

theorem DateTime.le_total' (a b : DateTime) : DateTime.Le a b ∨ DateTime.Le b a := by
  unfold DateTime.Le; omega

theorem DateTime.le_trans' (a b c : DateTime) :
    DateTime.Le a b → DateTime.Le b c → DateTime.Le a c := by
  unfold DateTime.Le; omega

theorem charListLt_irrefl : ∀ x, charListLt x x = false
  | [] => rfl
  | a :: as => by
    simp only [charListLt, if_neg (lt_irrefl a)]
    exact charListLt_irrefl as

theorem charListLt_asymm : ∀ x y, charListLt x y = true → charListLt y x = false
  | [], [] => by simp [charListLt]
  | [], _ :: _ => by simp [charListLt]
  | _ :: _, [] => by simp [charListLt]
  | a :: as, b :: bs => by
    by_cases hab : a < b
    · intro
      simp [charListLt, hab, lt_asymm hab]
    · by_cases hba : b < a
      · simp [charListLt, hab, hba]
      · simp only [charListLt, if_neg hab, if_neg hba]
        exact charListLt_asymm as bs

theorem charListLt_eq_of_both_false : ∀ x y,
    charListLt x y = false → charListLt y x = false → x = y
  | [], [] => by intros; rfl
  | [], _ :: _ => by simp [charListLt]
  | _ :: _, [] => by simp [charListLt]
  | a :: as, b :: bs => by
    by_cases hab : a < b
    · simp [charListLt, hab]
    · by_cases hba : b < a
      · simp [charListLt, hab, hba]
      · simp only [charListLt, if_neg hab, if_neg hba]
        intro h1 h2
        have he : a = b := le_antisymm (not_lt.mp hba) (not_lt.mp hab)
        rw [he, charListLt_eq_of_both_false as bs h1 h2]

theorem charListLt_trans : ∀ x y z, charListLt x y = true → charListLt y z = true →
    charListLt x z = true
  | [], [], [] => by simp [charListLt]
  | [], _ :: _, [] => by simp [charListLt]
  | [], [], _ :: _ => by simp [charListLt]
  | [], _ :: _, _ :: _ => by simp [charListLt]
  | _ :: _, [], _ => by simp [charListLt]
  | _ :: _, _ :: _, [] => by simp [charListLt]
  | a :: as, b :: bs, c :: cs => by
    intro h1 h2
    by_cases hab : a < b
    · by_cases hbc : b < c
      · simp [charListLt, lt_trans hab hbc]
      · by_cases hcb : c < b
        · simp [charListLt, hbc, hcb] at h2
        · have he : b = c := le_antisymm (not_lt.mp hcb) (not_lt.mp hbc)
          simp [charListLt, he ▸ hab]
    · by_cases hba : b < a
      · simp [charListLt, hab, hba] at h1
      · have he : a = b := le_antisymm (not_lt.mp hba) (not_lt.mp hab)
        simp only [charListLt, if_neg hab, if_neg hba] at h1
        by_cases hbc : b < c
        · simp [charListLt, he ▸ hbc]
        · by_cases hcb : c < b
          · simp [charListLt, hbc, hcb] at h2
          · have he2 : b = c := le_antisymm (not_lt.mp hcb) (not_lt.mp hbc)
            simp only [charListLt, if_neg hbc, if_neg hcb] at h2
            have hac : ¬ a < c := by rw [he, he2]; exact lt_irrefl c
            have hca : ¬ c < a := by rw [he, he2]; exact lt_irrefl c
            simp only [charListLt, if_neg hac, if_neg hca]
            exact charListLt_trans as bs cs h1 h2

theorem charListLt_negtrans {x y z : List Char} (h1 : charListLt y x = false)
    (h2 : charListLt z y = false) : charListLt z x = false := by
  cases hzx : charListLt z x with
  | false => rfl
  | true =>
    exfalso
    cases hyz : charListLt y z with
    | true =>
      have := charListLt_trans y z x hyz hzx
      rw [h1] at this
      exact Bool.false_ne_true this
    | false =>
      have he : y = z := charListLt_eq_of_both_false y z hyz h2
      rw [← he] at hzx
      rw [h1] at hzx
      exact Bool.false_ne_true hzx

instance : IsTotal Person nameLe := ⟨by
  intro a b
  simp only [nameLe]
  cases h1 : charListLt a.last_name.data b.last_name.data with
  | true => exact Or.inl (Or.inl rfl)
  | false =>
    cases h2 : charListLt b.last_name.data a.last_name.data with
    | true => exact Or.inr (Or.inl rfl)
    | false =>
      have he : a.last_name = b.last_name := by
        have := charListLt_eq_of_both_false _ _ h1 h2
        cases hla : a.last_name with
        | mk da =>
          cases hlb : b.last_name with
          | mk db =>
            rw [hla, hlb] at this
            exact congrArg String.mk this
      cases h3 : charListLt b.first_name.data a.first_name.data with
      | false => exact Or.inl (Or.inr ⟨he, rfl⟩)
      | true => exact Or.inr (Or.inr ⟨he.symm, charListLt_asymm _ _ h3⟩)⟩

instance : IsTrans Person nameLe := ⟨by
  intro a b c hab hbc
  simp only [nameLe] at hab hbc ⊢
  rcases hab with h1 | ⟨e1, f1⟩
  · rcases hbc with h2 | ⟨e2, f2⟩
    · exact Or.inl (charListLt_trans _ _ _ h1 h2)
    · exact Or.inl (e2 ▸ h1)
  · rcases hbc with h2 | ⟨e2, f2⟩
    · exact Or.inl (e1 ▸ h2)
    · exact Or.inr ⟨e1.trans e2, charListLt_negtrans f1 f2⟩⟩

theorem digitVal_digitChar : ∀ n < 10, digitVal (digitChar n) = n := by decide

theorem isDigit_digitChar : ∀ n < 10, (digitChar n).isDigit = true := by decide

theorem digitChar_inj : ∀ m < 10, ∀ n < 10, digitChar m = digitChar n → m = n := by decide

theorem digitChar_ne_dash : ∀ n < 10, digitChar n ≠ '-' := by decide

theorem natDigitsAux_small (fuel n : Nat) (hf : 0 < fuel) (h : n < 10) :
    natDigitsAux fuel n = [digitChar n] := by
  obtain ⟨f, rfl⟩ : ∃ f, fuel = f + 1 := ⟨fuel - 1, by omega⟩
  simp [natDigitsAux, h]

theorem natDigits_small (n : Nat) (h : n < 10) : natDigits n = [digitChar n] :=
  natDigitsAux_small _ _ (by omega) h

theorem natDigits_two (n : Nat) (h1 : 10 ≤ n) (h2 : n < 100) :
    natDigits n = [digitChar (n / 10), digitChar (n % 10)] := by
  unfold natDigits
  simp only [natDigitsAux, if_neg (by omega : ¬ n < 10)]
  rw [natDigitsAux_small n (n / 10) (by omega) (by omega)]
  rfl

theorem natDigitsAux_length_pos (fuel n : Nat) (hf : 0 < fuel) :
    1 ≤ (natDigitsAux fuel n).length := by
  obtain ⟨f, rfl⟩ : ∃ f, fuel = f + 1 := ⟨fuel - 1, by omega⟩
  by_cases h : n < 10 <;> simp [natDigitsAux, h]

theorem natDigitsAux_length_two (fuel n : Nat) (hf : 2 ≤ fuel) (h : 10 ≤ n) :
    2 ≤ (natDigitsAux fuel n).length := by
  obtain ⟨f, rfl⟩ : ∃ f, fuel = f + 1 := ⟨fuel - 1, by omega⟩
  simp only [natDigitsAux, if_neg (by omega : ¬ n < 10)]
  have := natDigitsAux_length_pos f (n / 10) (by omega)
  simp only [List.length_append, List.length_cons, List.length_nil]
  omega

theorem natDigits_length_three (n : Nat) (h : 100 ≤ n) :
    3 ≤ (natDigits n).length := by
  unfold natDigits
  simp only [natDigitsAux, if_neg (by omega : ¬ n < 10)]
  have := natDigitsAux_length_two n (n / 10) (by omega) (by omega)
  simp only [List.length_append, List.length_cons, List.length_nil]
  omega

theorem parseMonthChars_pad (m : Nat) (h1 : 1 ≤ m) (h2 : m ≤ 12) (rest : List Char) :
    parseMonthChars (digitChar (m / 10 % 10) :: digitChar (m % 10) :: rest) =
      some (m, rest) := by
  interval_cases m <;> rfl

theorem parseDayChars_pad (d : Nat) (h1 : 1 ≤ d) (h2 : d ≤ 31) (rest : List Char) :
    parseDayChars (digitChar (d / 10 % 10) :: digitChar (d % 10) :: rest) =
      some (d, rest) := by
  interval_cases d <;> rfl

theorem parseDateChars_cons (y1 y2 y3 y4 c : Char) (rest : List Char) :
    parseDateChars (y1 :: y2 :: y3 :: y4 :: c :: rest) =
      if y1.isDigit ∧ y2.isDigit ∧ y3.isDigit ∧ y4.isDigit ∧ c = '-' then
        parseAfterYear
          (digitVal y1 * 1000 + digitVal y2 * 100 + digitVal y3 * 10 + digitVal y4) rest
      else none := rfl

theorem parseAfterYear_eq (y m : Nat) (cs rest : List Char)
    (h : parseMonthChars cs = some (m, rest)) :
    parseAfterYear y cs = parseAfterMonth y m rest := by
  unfold parseAfterYear; rw [h]

theorem parseAfterMonth_cons (y m : Nat) (c : Char) (rest : List Char) :
    parseAfterMonth y m (c :: rest) =
      if c = '-' then parseAfterDash y m rest else none := rfl

theorem parseAfterDash_eq (y m d : Nat) (cs rest : List Char)
    (h : parseDayChars cs = some (d, rest)) :
    parseAfterDash y m cs = parseAfterDay y m d rest := by
  unfold parseAfterDash; rw [h]

theorem daysInMonth_le_31 (y m : Nat) : daysInMonth y m ≤ 31 := by
  unfold daysInMonth
  split
  · split <;> omega
  · split <;> omega

theorem parseDate_dateChars (d : DateTime) (h : d.Valid) :
    parseDate (String.mk (dateChars d)) = some (d.year, d.month, d.day) := by
  obtain ⟨h1, h2, h3, h4, h5, h6, -⟩ := h
  have hday31 : d.day ≤ 31 := le_trans h6 (daysInMonth_le_31 d.year d.month)
  show parseDateChars (dateChars d) = _
  unfold dateChars
  rw [parseDateChars_cons]
  rw [if_pos ⟨isDigit_digitChar _ (by omega), isDigit_digitChar _ (by omega),
    isDigit_digitChar _ (by omega), isDigit_digitChar _ (by omega), rfl⟩]
  rw [parseAfterYear_eq _ d.month _ _ (parseMonthChars_pad d.month h3 h4 _)]
  rw [parseAfterMonth_cons, if_pos rfl]
  rw [parseAfterDash_eq _ _ d.day _ _ (parseDayChars_pad d.day h5 hday31 _)]
  unfold parseAfterDay
  rw [if_pos rfl]
  rw [digitVal_digitChar _ (by omega), digitVal_digitChar _ (by omega),
    digitVal_digitChar _ (by omega), digitVal_digitChar _ (by omega)]
  have hy : d.year / 1000 % 10 * 1000 + d.year / 100 % 10 * 100 +
      d.year / 10 % 10 * 10 + d.year % 10 = d.year := by omega
  rw [hy, if_pos ⟨h1, h6⟩]

theorem formatInt2_natCast (k : Nat) (h1 : 1 ≤ k) (h2 : k ≤ 12) :
    formatInt2 (k : Int) = [digitChar (k / 10 % 10), digitChar (k % 10)] := by
  interval_cases k <;> rfl

theorem pad2_ne_formatInt2 (k : Nat) (h1 : 1 ≤ k) (h2 : k ≤ 12) (m : Int)
    (hm : m < 1 ∨ 12 < m) :
    [digitChar (k / 10 % 10), digitChar (k % 10)] ≠ formatInt2 m := by
  intro he
  unfold formatInt2 at he
  by_cases hneg : m < 0
  · rw [if_pos hneg] at he
    simp only [List.cons.injEq] at he
    exact digitChar_ne_dash _ (by omega) he.1
  · rw [if_neg hneg] at he
    have hn : m.toNat = 0 ∨ 13 ≤ m.toNat := by omega
    rcases hn with hn | hn
    · rw [if_pos (by omega), hn] at he
      simp only [List.cons.injEq] at he
      have e1 : k / 10 % 10 = 0 := by
        have : digitChar (k / 10 % 10) = digitChar 0 := he.1
        exact digitChar_inj _ (by omega) _ (by omega) this
      have e2 : k % 10 = 0 := by
        have : digitChar (k % 10) = digitChar 0 := he.2.1
        exact digitChar_inj _ (by omega) _ (by omega) this
      omega
    · rw [if_neg (by omega)] at he
      by_cases hsmall : m.toNat < 100
      · rw [natDigits_two m.toNat (by omega) hsmall] at he
        simp only [List.cons.injEq] at he
        have e1 : k / 10 % 10 = m.toNat / 10 :=
          digitChar_inj _ (by omega) _ (by omega) he.1
        have e2 : k % 10 = m.toNat % 10 :=
          digitChar_inj _ (by omega) _ (by omega) he.2.1
        omega
      · have hlen := congrArg List.length he
        simp only [List.length_cons, List.length_nil] at hlen
        have := natDigits_length_three m.toNat (by omega)
        omega

theorem mem_joinAll {db : DB} {t : Transaction} {p : Person} :
    (t, p) ∈ joinAll db ↔
      t ∈ db.transactions ∧ p ∈ db.people ∧ p.person_id = t.person_id := by
  simp only [joinAll, List.mem_flatMap, List.mem_map, List.mem_filter, decide_eq_true_eq,
    Prod.mk.injEq]
  constructor
  · rintro ⟨t2, ht2, p2, ⟨hp2, hid⟩, rfl, rfl⟩
    exact ⟨ht2, hp2, hid⟩
  · rintro ⟨ht, hp, hid⟩
    exact ⟨t, ht, p, ⟨hp, hid⟩, rfl, rfl⟩

theorem mem_rowsByName {db : DB} {fn ln : String} {t : Transaction} :
    t ∈ rowsByName db fn ln ↔
      t ∈ db.transactions ∧ ∃ p ∈ db.people,
        p.person_id = t.person_id ∧ p.first_name = fn ∧ p.last_name = ln := by
  unfold rowsByName
  simp only [List.mem_map, List.mem_filter, Bool.and_eq_true, decide_eq_true_eq]
  constructor
  · rintro ⟨⟨t2, p2⟩, ⟨hj, hfn, hln⟩, rfl⟩
    rw [mem_joinAll] at hj
    exact ⟨hj.1, p2, hj.2.1, hj.2.2, hfn, hln⟩
  · rintro ⟨ht, p, hp, hid, hfn, hln⟩
    exact ⟨(t, p), ⟨mem_joinAll.mpr ⟨ht, hp, hid⟩, hfn, hln⟩, rfl⟩

theorem mem_qualTxns {db : DB} {pid : Nat} {t : Transaction} :
    t ∈ qualTxns db pid ↔
      t ∈ db.transactions ∧ t.person_id = pid ∧ isQualLoc t.location = true := by
  unfold qualTxns
  simp only [List.mem_filter, Bool.and_eq_true, decide_eq_true_eq, and_assoc]

theorem isQualLoc_iff {o : Option String} :
    isQualLoc o = true ↔ ∃ s, o = some s ∧ s ≠ "" := by
  cases o <;> simp [isQualLoc]

theorem mem_qualLocs {db : DB} {pid : Nat} {r : String} :
    r ∈ qualLocs db pid ↔ ∃ t ∈ qualTxns db pid, t.location = some r := by
  unfold qualLocs
  rw [List.mem_dedup, List.mem_filterMap]

theorem qualLocs_eq_nil_iff {db : DB} {pid : Nat} :
    qualLocs db pid = [] ↔ qualTxns db pid = [] := by
  unfold qualLocs
  rw [List.dedup_eq_nil]
  constructor
  · intro h
    cases hq : qualTxns db pid with
    | nil => rfl
    | cons t ts =>
      exfalso
      have ht : t ∈ qualTxns db pid := by rw [hq]; exact List.mem_cons_self _ _
      obtain ⟨s, hs, -⟩ := isQualLoc_iff.mp (mem_qualTxns.mp ht).2.2
      have hmem : s ∈ (qualTxns db pid).filterMap fun t => t.location :=
        List.mem_filterMap.mpr ⟨t, ht, by rw [hs]⟩
      rw [h] at hmem
      exact absurd hmem (List.not_mem_nil s)
  · intro h; rw [h]; rfl

theorem locBetter_eq_true_iff {db : DB} {pid : Nat} {a b : String} :
    locBetter db pid a b = true ↔
      (locCount db pid b < locCount db pid a ∨
        (locCount db pid a = locCount db pid b ∧
          ¬ DateTime.Le (locMaxDate db pid a) (locMaxDate db pid b))) := by
  unfold locBetter
  simp [Bool.or_eq_true, Bool.and_eq_true, decide_eq_true_eq]

theorem locBetter_eq_false_iff {db : DB} {pid : Nat} {a b : String} :
    locBetter db pid a b = false ↔
      (locCount db pid a ≤ locCount db pid b ∧
        (locCount db pid a = locCount db pid b →
          DateTime.Le (locMaxDate db pid a) (locMaxDate db pid b))) := by
  rw [Bool.eq_false_iff, Ne, locBetter_eq_true_iff]
  constructor
  · intro h
    refine ⟨?_, ?_⟩
    · by_contra hc
      exact h (Or.inl (by omega))
    · intro he
      by_contra hc
      exact h (Or.inr ⟨he, hc⟩)
  · rintro ⟨hle, him⟩ (hlt | ⟨he, hnd⟩)
    · omega
    · exact hnd (him he)

theorem locBetter_irrefl (db : DB) (pid : Nat) (a : String) :
    locBetter db pid a a = false := by
  rw [Bool.eq_false_iff]
  intro h
  rcases locBetter_eq_true_iff.mp h with h1 | ⟨-, h2⟩
  · omega
  · exact h2 (DateTime.le_refl _)

theorem locBetter_trans {db : DB} {pid : Nat} {a b c : String}
    (h1 : locBetter db pid a b = true) (h2 : locBetter db pid b c = true) :
    locBetter db pid a c = true := by
  rw [locBetter_eq_true_iff] at h1 h2 ⊢
  rcases h1 with h1 | ⟨e1, d1⟩
  · rcases h2 with h2 | ⟨e2, d2⟩
    · exact Or.inl (by omega)
    · exact Or.inl (by omega)
  · rcases h2 with h2 | ⟨e2, d2⟩
    · exact Or.inl (by omega)
    · refine Or.inr ⟨by omega, fun hle => ?_⟩
      rcases DateTime.le_total' (locMaxDate db pid a) (locMaxDate db pid b) with h | h
      · exact d1 h
      · exact d2 (DateTime.le_trans' _ _ _ h hle)

theorem locBetter_asymm {db : DB} {pid : Nat} {a b : String}
    (h : locBetter db pid a b = true) : locBetter db pid b a = false := by
  rw [Bool.eq_false_iff]
  intro h2
  have h3 := locBetter_trans h h2
  rw [locBetter_irrefl] at h3
  exact Bool.false_ne_true h3

theorem locBetter_negtrans {db : DB} {pid : Nat} {a b c : String}
    (h1 : locBetter db pid a b = false) (h2 : locBetter db pid b c = false) :
    locBetter db pid a c = false := by
  rw [locBetter_eq_false_iff] at h1 h2 ⊢
  obtain ⟨le1, im1⟩ := h1
  obtain ⟨le2, im2⟩ := h2
  refine ⟨by omega, fun he => ?_⟩
  have e1 : locCount db pid a = locCount db pid b := by omega
  have e2 : locCount db pid b = locCount db pid c := by omega
  exact DateTime.le_trans' _ _ _ (im1 e1) (im2 e2)

theorem pickBest_spec (db : DB) (pid : Nat) (l : String) (ls : List String) :
    pickBest db pid l ls ∈ l :: ls ∧
      ∀ x ∈ l :: ls, locBetter db pid x (pickBest db pid l ls) = false := by
  induction ls generalizing l with
  | nil =>
    refine ⟨List.mem_cons_self _ _, ?_⟩
    intro x hx
    rcases List.mem_cons.mp hx with rfl | hx
    · exact locBetter_irrefl db pid x
    · exact absurd hx (List.not_mem_nil x)
  | cons l2 ls ih =>
    have hfold : pickBest db pid l (l2 :: ls) =
        pickBest db pid (if locBetter db pid l2 l then l2 else l) ls := rfl
    by_cases hb : locBetter db pid l2 l = true
    · rw [hfold, if_pos hb]
      obtain ⟨hmem, hmax⟩ := ih l2
      refine ⟨?_, ?_⟩
      · rcases List.mem_cons.mp hmem with h | h
        · rw [h]; exact List.mem_cons_of_mem _ (List.mem_cons_self _ _)
        · exact List.mem_cons_of_mem _ (List.mem_cons_of_mem _ h)
      · intro x hx
        rcases List.mem_cons.mp hx with rfl | hx2
        · exact locBetter_negtrans (locBetter_asymm hb) (hmax l2 (List.mem_cons_self _ _))
        · exact hmax x hx2
    · have hb' : locBetter db pid l2 l = false := by
        cases h : locBetter db pid l2 l
        · rfl
        · exact absurd h hb
      rw [hfold, if_neg hb]
      obtain ⟨hmem, hmax⟩ := ih l
      refine ⟨?_, ?_⟩
      · rcases List.mem_cons.mp hmem with h | h
        · rw [h]; exact List.mem_cons_self _ _
        · exact List.mem_cons_of_mem _ (List.mem_cons_of_mem _ h)
      · intro x hx
        rcases List.mem_cons.mp hx with rfl | hx2
        · exact hmax x (List.mem_cons_self _ _)
        · rcases List.mem_cons.mp hx2 with rfl | hx3
          · exact locBetter_negtrans hb' (hmax l (List.mem_cons_self _ _))
          · exact hmax x (List.mem_cons_of_mem _ hx3)

theorem mostFrequentLocation_spec {db : DB} {pid : Nat} {r : String}
    (h : mostFrequentLocation db pid = some r) :
    r ∈ qualLocs db pid ∧
      ∀ l ∈ qualLocs db pid,
        locCount db pid l < locCount db pid r ∨
          (locCount db pid l = locCount db pid r ∧
            DateTime.Le (locMaxDate db pid l) (locMaxDate db pid r)) := by
  unfold mostFrequentLocation at h
  cases hq : qualLocs db pid with
  | nil =>
    rw [hq] at h
    exact absurd h (by simp)
  | cons l ls =>
    rw [hq] at h
    have h2 : some (pickBest db pid l ls) = some r := h
    injection h2 with h2
    subst h2
    obtain ⟨hmem, hmax⟩ := pickBest_spec db pid l ls
    refine ⟨hq ▸ hmem, ?_⟩
    intro x hx
    have hnb := hmax x (hq ▸ hx)
    rw [locBetter_eq_false_iff] at hnb
    obtain ⟨hle, him⟩ := hnb
    rcases Nat.lt_or_ge (locCount db pid x) (locCount db pid (pickBest db pid l ls)) with
      h1 | h1
    · exact Or.inl h1
    · have he : locCount db pid x = locCount db pid (pickBest db pid l ls) := by omega
      exact Or.inr ⟨he, him he⟩

theorem mem_list_all_people {db : DB} {rec : PersonRecord} :
    rec ∈ list_all_people db ↔ ∃ p ∈ db.people, rec = personRecord db p := by
  unfold list_all_people
  simp only [List.mem_map, List.mem_insertionSort]
  constructor
  · rintro ⟨p, hp, rfl⟩
    exact ⟨p, hp, rfl⟩
  · rintro ⟨p, hp, rfl⟩
    exact ⟨p, hp, rfl⟩

theorem mostFrequentLocation_eq_none_iff {db : DB} {pid : Nat} :
    mostFrequentLocation db pid = none ↔ qualTxns db pid = [] := by
  unfold mostFrequentLocation
  rw [← qualLocs_eq_nil_iff]
  cases hq : qualLocs db pid with
  | nil => simp
  | cons l ls => simp

/-! Claim theorems. -/

/-- C3: for every `date_str` that does not parse in the fixed YYYY-MM-DD
format, `get_transactions_by_day_and_name` returns an empty sequence and
reports a diagnostic, and never propagates the parse failure to the
caller as a thrown fault (the early return also closes the connection,
and it is taken before the statement ever executes, so it holds whether
or not execution would have raised). -/
theorem day_query_invalid_date (db : DB) (execOk : Bool) (fn ln ds : String)
    (h : parseDate ds = none) :
    dayRun db execOk fn ln ds = ⟨true, true, Except.ok []⟩ ∧
      get_transactions_by_day_and_name db fn ln ds = [] := by
  constructor
  · unfold dayRun
    rw [h]
  · unfold get_transactions_by_day_and_name
    rw [h]

/-- Witness for C3 at the malformed input "2024-13-40". -/
theorem day_query_invalid_date_witness :
    parseDate "2024-13-40" = none ∧
      (dayRun dbAda true "Ada" "Lovelace" "2024-13-40" = ⟨true, true, Except.ok []⟩ ∧
        get_transactions_by_day_and_name dbAda "Ada" "Lovelace" "2024-13-40" = []) :=
  ⟨by decide, day_query_invalid_date dbAda true "Ada" "Lovelace" "2024-13-40" (by decide)⟩

/-- C9 counterexample: the claim "every query operation releases its
store connection on every exit path, including when statement execution
or row fetching raises an error" is false on the code: when execution
raises inside `get_transactions_by_month_and_name` (no try/finally), the
close is skipped. -/
theorem connection_release_counterexample :
    (monthRun dbAda false "Ada" "Lovelace" 1).closed = false := rfl

/-- C9 amended: every query operation closes its connection on every
non-raising exit path, including the malformed-date early return of the
by-day query; but when statement execution or row fetching raises, the
connection is not closed. -/
theorem connection_release_amended (db : DB) (execOk : Bool) (fn ln ds loc : String)
    (m : Int) :
    (monthRun db true fn ln m).closed = true ∧
      (dayRun db true fn ln ds).closed = true ∧
      (totalRun db true fn ln).closed = true ∧
      (peopleRun db true).closed = true ∧
      (locationRun db true loc).closed = true ∧
      (parseDate ds = none → (dayRun db execOk fn ln ds).closed = true) := by
  refine ⟨rfl, ?_, rfl, rfl, rfl, ?_⟩
  · cases hp : parseDate ds <;> simp [dayRun, hp]
  · intro h
    unfold dayRun
    rw [h]

/-- Witness for C9's amended claim at a malformed date with raising
execution. -/
theorem connection_release_amended_witness :
    parseDate "bad-date" = none ∧
      (dayRun dbAda false "Ada" "Lovelace" "bad-date").closed = true :=
  ⟨by decide,
    (connection_release_amended dbAda false "Ada" "Lovelace" "bad-date" "London" 1).2.2.2.2.2
      (by decide)⟩

/-- C2: `get_total_transaction_amount_by_name` returns the sum of
`amount` over exactly the transactions joined to the matching person
rows, rounded to 2 decimal places, and returns exactly `0.0` (a total
function, never null and never an error) when no person matches or the
matching person has zero transactions (the joined row set is empty). -/
theorem total_amount_spec (db : DB) (fn ln : String) :
    get_total_transaction_amount_by_name db fn ln =
        round2 (((rowsByName db fn ln).map fun t => t.amount).sum) ∧
      ((∀ p ∈ db.people, ¬(p.first_name = fn ∧ p.last_name = ln)) →
        get_total_transaction_amount_by_name db fn ln = 0) ∧
      (rowsByName db fn ln = [] →
        get_total_transaction_amount_by_name db fn ln = 0) := by
  have hempty : round2 0 = 0 := by
    norm_num [round2, roundHalfEven]
  have h3 : rowsByName db fn ln = [] →
      get_total_transaction_amount_by_name db fn ln = 0 := by
    intro h
    unfold get_total_transaction_amount_by_name
    rw [h]
    rfl
  refine ⟨?_, ?_, h3⟩
  · unfold get_total_transaction_amount_by_name
    cases hr : rowsByName db fn ln with
    | nil =>
      show (0 : ℚ) = round2 0
      rw [hempty]
    | cons t ts => rfl
  · intro hno
    apply h3
    unfold rowsByName
    rw [List.map_eq_nil_iff, List.filter_eq_nil_iff]
    rintro ⟨t2, p2⟩ hj
    rw [Bool.and_eq_true, decide_eq_true_eq, decide_eq_true_eq]
    rintro ⟨hfn, hln⟩
    exact hno p2 (mem_joinAll.mp hj).2.1 ⟨hfn, hln⟩

/-- Witness for C2 at a name matching no person. -/
theorem total_amount_spec_witness :
    (∀ p ∈ dbAda.people, ¬(p.first_name = "Alan" ∧ p.last_name = "Turing")) ∧
      get_total_transaction_amount_by_name dbAda "Alan" "Turing" = 0 :=
  ⟨by decide, (total_amount_spec dbAda "Alan" "Turing").2.1 (by decide)⟩

/-- C5: the by-month and by-day results are sorted ascending by
`transaction_date`, and the by-location result is sorted descending by
`transaction_date`, for every input. -/
theorem query_results_sorted (db : DB) (fn ln ds loc : String) (m : Int) :
    (get_transactions_by_month_and_name db fn ln m).Pairwise recDateAsc ∧
      (get_transactions_by_day_and_name db fn ln ds).Pairwise recDateAsc ∧
      (get_transactions_by_location db loc).Pairwise recDateDesc := by
  refine ⟨?_, ?_, ?_⟩
  · unfold get_transactions_by_month_and_name
    rw [List.pairwise_map]
    exact (List.sorted_insertionSort txDateAsc _).imp fun h => h
  · cases hp : parseDate ds with
    | none => simp [get_transactions_by_day_and_name, hp]
    | some v =>
      unfold get_transactions_by_day_and_name
      rw [hp]
      rw [List.pairwise_map]
      exact (List.sorted_insertionSort txDateAsc _).imp fun h => h
  · unfold get_transactions_by_location
    rw [List.pairwise_map]
    exact (List.sorted_insertionSort rowDateDesc _).imp fun h => h

/-- C8: for every integer month outside 1..12, the two-digit formatting
of the month matches no stored month component (all stored dates being
real timestamps), so `get_transactions_by_month_and_name` returns an
empty sequence and does not crash. -/
theorem month_out_of_range_empty (db : DB) (fn ln : String) (m : Int)
    (hv : ∀ t ∈ db.transactions, t.transaction_date.Valid) (hm : m < 1 ∨ 12 < m) :
    get_transactions_by_month_and_name db fn ln m = [] := by
  unfold get_transactions_by_month_and_name
  have hf : ((rowsByName db fn ln).filter fun t =>
      monthChars t.transaction_date == formatInt2 m) = [] := by
    rw [List.filter_eq_nil_iff]
    intro t ht
    obtain ⟨-, -, h3, h4, -⟩ := hv t (mem_rowsByName.mp ht).1
    simp only [beq_iff_eq]
    unfold monthChars
    exact pad2_ne_formatInt2 t.transaction_date.month h3 h4 m hm
  rw [hf]
  rfl

/-- Witness for C8 at month 13. -/
theorem month_out_of_range_empty_witness :
    (∀ t ∈ dbAda.transactions, t.transaction_date.Valid) ∧
      get_transactions_by_month_and_name dbAda "Ada" "Lovelace" 13 = [] :=
  ⟨by decide, month_out_of_range_empty dbAda "Ada" "Lovelace" 13 (by decide) (by decide)⟩

/-- C1: the location reported by `list_all_people` as
`most_frequent_location` is maximal among the person's qualifying
locations under the ranking (count descending, then latest
`transaction_date` descending): every other qualifying location either
has a strictly smaller count, or an equal count and a latest transaction
no more recent.  In particular, of two distinct locations with equal
counts the reported one is the one whose latest transaction is more
recent, and a location with a strictly higher count always beats one
with a lower count. -/
theorem most_frequent_location_tiebreak (db : DB) (rec : PersonRecord)
    (hmem : rec ∈ list_all_people db) (r : String)
    (hr : rec.most_frequent_location = some r) :
    r ∈ qualLocs db rec.person_id ∧
      ∀ l ∈ qualLocs db rec.person_id,
        locCount db rec.person_id l < locCount db rec.person_id r ∨
          (locCount db rec.person_id l = locCount db rec.person_id r ∧
            DateTime.Le (locMaxDate db rec.person_id l)
              (locMaxDate db rec.person_id r)) := by
  obtain ⟨p, hp, rfl⟩ := mem_list_all_people.mp hmem
  exact mostFrequentLocation_spec hr

/-- Witness for C1 on the tied store: Paris and London both have count
1, London's transaction is more recent, and London is reported. -/
theorem most_frequent_location_tiebreak_witness :
    personRecord dbTie tieP ∈ list_all_people dbTie ∧
      (personRecord dbTie tieP).most_frequent_location = some "London" ∧
      ("London" ∈ qualLocs dbTie (personRecord dbTie tieP).person_id ∧
        ∀ l ∈ qualLocs dbTie (personRecord dbTie tieP).person_id,
          locCount dbTie (personRecord dbTie tieP).person_id l <
              locCount dbTie (personRecord dbTie tieP).person_id "London" ∨
            (locCount dbTie (personRecord dbTie tieP).person_id l =
                locCount dbTie (personRecord dbTie tieP).person_id "London" ∧
              DateTime.Le (locMaxDate dbTie (personRecord dbTie tieP).person_id l)
                (locMaxDate dbTie (personRecord dbTie tieP).person_id "London"))) :=
  ⟨by decide, by decide,
    most_frequent_location_tiebreak dbTie (personRecord dbTie tieP) (by decide) "London"
      (by decide)⟩

/-- C7: the most-frequent-location computation counts only transactions
whose location is neither NULL nor the empty string; a person has a NULL
`most_frequent_location` exactly when they have zero qualifying
transactions (so zero-qualifying persons get NULL, not an error and not
an empty string), and a reported location is a non-empty location of one
of the person's own transactions. -/
theorem most_frequent_location_qualifying (db : DB) (rec : PersonRecord)
    (hmem : rec ∈ list_all_people db) :
    (rec.most_frequent_location = none ↔ qualTxns db rec.person_id = []) ∧
      ∀ r, rec.most_frequent_location = some r →
        r ≠ "" ∧ ∃ t ∈ db.transactions,
          t.person_id = rec.person_id ∧ t.location = some r := by
  obtain ⟨p, hp, rfl⟩ := mem_list_all_people.mp hmem
  refine ⟨mostFrequentLocation_eq_none_iff, ?_⟩
  intro r hr
  obtain ⟨hrq, -⟩ := mostFrequentLocation_spec hr
  obtain ⟨t, htq, hloc⟩ := mem_qualLocs.mp hrq
  obtain ⟨htx, htid, hql⟩ := mem_qualTxns.mp htq
  obtain ⟨s, hs, hne⟩ := isQualLoc_iff.mp hql
  refine ⟨?_, t, htx, htid, hloc⟩
  rw [hloc] at hs
  injection hs with hs
  rw [← hs] at hne
  exact hne

/-- Witness for C7: Grace Hopper has no transactions and her record
reports a NULL location. -/
theorem most_frequent_location_qualifying_witness :
    personRecord dbAda graceP ∈ list_all_people dbAda ∧
      (((personRecord dbAda graceP).most_frequent_location = none ↔
          qualTxns dbAda (personRecord dbAda graceP).person_id = []) ∧
        ∀ r, (personRecord dbAda graceP).most_frequent_location = some r →
          r ≠ "" ∧ ∃ t ∈ dbAda.transactions,
            t.person_id = (personRecord dbAda graceP).person_id ∧ t.location = some r) :=
  ⟨by decide,
    most_frequent_location_qualifying dbAda (personRecord dbAda graceP) (by decide)⟩

/-- C4: every transaction of a person appears in the by-month query for
that transaction's month and in the by-day query for the canonical
rendering of that transaction's date. -/
theorem transaction_in_month_and_day_queries (db : DB) (p : Person) (t : Transaction)
    (hp : p ∈ db.people) (ht : t ∈ db.transactions) (hpt : t.person_id = p.person_id)
    (hv : t.transaction_date.Valid) :
    txRecord t ∈ get_transactions_by_month_and_name db p.first_name p.last_name
        (t.transaction_date.month : Int) ∧
      txRecord t ∈ get_transactions_by_day_and_name db p.first_name p.last_name
        (String.mk (dateChars t.transaction_date)) := by
  have hrow : t ∈ rowsByName db p.first_name p.last_name :=
    mem_rowsByName.mpr ⟨ht, p, hp, hpt.symm, rfl, rfl⟩
  constructor
  · obtain ⟨-, -, h3, h4, -⟩ := hv
    unfold get_transactions_by_month_and_name
    apply List.mem_map_of_mem
    rw [List.mem_insertionSort, List.mem_filter]
    refine ⟨hrow, ?_⟩
    rw [beq_iff_eq]
    unfold monthChars
    rw [formatInt2_natCast t.transaction_date.month h3 h4]
  · unfold get_transactions_by_day_and_name
    rw [parseDate_dateChars t.transaction_date hv]
    apply List.mem_map_of_mem
    rw [List.mem_insertionSort, List.mem_filter]
    refine ⟨hrow, ?_⟩
    rw [beq_iff_eq]

/-- Witness for C4 at Ada's first transaction. -/
theorem transaction_in_month_and_day_queries_witness :
    (adaP ∈ dbAda.people ∧ tx1 ∈ dbAda.transactions ∧ tx1.person_id = adaP.person_id ∧
        tx1.transaction_date.Valid) ∧
      txRecord tx1 ∈ get_transactions_by_month_and_name dbAda "Ada" "Lovelace"
          (tx1.transaction_date.month : Int) ∧
        txRecord tx1 ∈ get_transactions_by_day_and_name dbAda "Ada" "Lovelace"
          (String.mk (dateChars tx1.transaction_date)) :=
  ⟨⟨by decide, by decide, by decide, by decide⟩,
    transaction_in_month_and_day_queries dbAda adaP tx1 (by decide) (by decide) (by decide)
      (by decide)⟩

/-- C6: `list_all_people` returns exactly one record per person row
(the multiset of `person_id`s is preserved, and when person ids are
unique each person contributes exactly one record), ordered by last name
then first name; the record type carries exactly the six fields
`person_id`, `first_name`, `last_name`, `email`, `phone_number`,
`most_frequent_location`. -/
theorem list_all_people_shape (db : DB) :
    ((list_all_people db).map fun rec => rec.person_id).Perm
        (db.people.map fun p => p.person_id) ∧
      (list_all_people db).Pairwise recNameLe ∧
      ∀ p ∈ db.people, (db.people.map fun q => q.person_id).Nodup →
        (list_all_people db).countP (fun rec => rec.person_id == p.person_id) = 1 := by
  have hperm : (List.insertionSort nameLe db.people).Perm db.people :=
    List.perm_insertionSort nameLe db.people
  refine ⟨?_, ?_, ?_⟩
  · unfold list_all_people
    rw [List.map_map]
    exact hperm.map _
  · unfold list_all_people
    rw [List.pairwise_map]
    exact (List.sorted_insertionSort nameLe db.people).imp fun h => h
  · intro p hp hnd
    unfold list_all_people
    rw [List.countP_map, hperm.countP_eq]
    have hcnt : List.count p.person_id (db.people.map fun q => q.person_id) =
        List.countP ((fun rec : PersonRecord => rec.person_id == p.person_id) ∘
          personRecord db) db.people := by
      show List.countP (fun x => x == p.person_id)
          (db.people.map fun q => q.person_id) = _
      rw [List.countP_map]
      rfl
    rw [← hcnt]
    exact List.count_eq_one_of_mem hnd (List.mem_map_of_mem _ hp)

/-- Witness for C6: Ada appears exactly once. -/
theorem list_all_people_shape_witness :
    adaP ∈ dbAda.people ∧ (dbAda.people.map fun q => q.person_id).Nodup ∧
      (list_all_people dbAda).countP (fun rec => rec.person_id == adaP.person_id) = 1 :=
  ⟨by decide, by decide, (list_all_people_shape dbAda).2.2 adaP (by decide) (by decide)⟩

/-- C10: the unpadded input "2024-3-5" passes the strptime format
validation, yet it can never equal the canonical zero-padded `date()`
rendering of a stored timestamp, so the by-day query returns an empty
sequence even though Ada has a transaction on that calendar day (the
canonically rendered "2024-03-05" finds it). -/
theorem day_query_unpadded_date_miss :
    parseDate "2024-3-5" = some (2024, 3, 5) ∧
      get_transactions_by_day_and_name dbAda "Ada" "Lovelace" "2024-3-5" = [] ∧
      get_transactions_by_day_and_name dbAda "Ada" "Lovelace" "2024-03-05" ≠ [] ∧
      String.mk (dateChars tx1.transaction_date) = "2024-03-05" :=
  ⟨by decide, by decide, by decide, by decide⟩

end FinMcp
